import Mathlib

/-!
Verification development for the Test Execution & Caching Engine of the
shortest test runner.

The definitions below are a shallow embedding of the TypeScript source:

* `TestRun` and its transition methods embed
  `packages/shortest/src/core/runner/test-run.ts`.
* `TestRunner.runCachedTest` and `TestRunner.executeTest` embed
  `packages/shortest/src/core/runner/index.ts` (the orchestrator).
* The `TestRunRepository` operations (`getLatestPassedRun`,
  `applyRetentionPolicy`, `saveRun`, serialization to `CacheEntry`) have no
  implementation file in the repository snapshot (only their unit tests and
  callers exist), so they are modelled from the specification; each such
  definition carries a doc comment starting with `Modelled from the spec:`.

Fallible TypeScript methods (those that `throw`) are embedded as functions
returning `Except`; external collaborators (browser, AI client, test
callbacks, the file lock) are embedded as explicit oracle data, and the
side effects of one orchestrator call are captured as a trace of events.
-/

namespace Shortest

/-- Decidable equality for `Except`, needed because callback outcomes are
embedded as `Except` values inside otherwise decidable structures. -/
instance {ε α : Type} [DecidableEq ε] [DecidableEq α] : DecidableEq (Except ε α) := fun a b =>
  match a, b with
  | Except.ok x, Except.ok y =>
    if h : x = y then Decidable.isTrue (by rw [h])
    else Decidable.isFalse (by intro hc; cases hc; exact h rfl)
  | Except.ok _, Except.error _ => Decidable.isFalse (by intro hc; cases hc)
  | Except.error _, Except.ok _ => Decidable.isFalse (by intro hc; cases hc)
  | Except.error x, Except.error y =>
    if h : x = y then Decidable.isTrue (by rw [h])
    else Decidable.isFalse (by intro hc; cases hc; exact h rfl)

/-- Test status enumeration, from `testStatusSchema` in the runner. -/
inductive TestStatus
  | pending
  | running
  | passed
  | failed
  deriving DecidableEq, Repr

/-- Token usage counters, from `TokenUsage` in `types/ai`. -/
structure TokenUsage where
  completionTokens : Nat
  promptTokens : Nat
  totalTokens : Nat
  deriving DecidableEq, Repr

/-- Generic domain error thrown by the engine (`ShortestError` in `utils/errors`). -/
structure ShortestError where
  message : String
  deriving DecidableEq, Repr

/-- The two kinds of recoverable cache errors (`CacheError` name argument:
`"not-found"` or `"invalid"`). -/
inductive CacheErrorKind
  | notFound
  | invalid
  deriving DecidableEq, Repr

/-- Recoverable cache error (`CacheError` in `utils/errors`), distinguished
from `ShortestError` by the orchestrator's replay-boundary catch. -/
structure CacheError where
  kind : CacheErrorKind
  message : String
  deriving DecidableEq, Repr

/-- Structured input of a recorded browser action (`step.action.input`).
Only the fields the engine inspects are modelled: the string discriminator
`action` and the optional `coordinate` pair. -/
structure ActionInput where
  action : String
  coordinate : Option (Int × Int)
  deriving DecidableEq, Repr

/-- A recorded action: type tag, tool name, and its structured input. -/
structure CacheAction where
  type : String
  name : String
  input : ActionInput
  deriving DecidableEq, Repr

/-- Extra recording-time data attached to a step; `componentStr` is the
structural fingerprint captured for pointer moves. -/
structure CacheStepExtras where
  componentStr : Option String
  deriving DecidableEq, Repr

/-- One recorded step of a test run (`CacheStep` in `types/cache`):
reasoning text, optional action, timestamp, result and extras. -/
structure CacheStep where
  reasoning : String
  action : Option CacheAction
  timestamp : Nat
  result : Option String
  extras : CacheStepExtras
  deriving DecidableEq, Repr

/-- A test case: name, file path, stable identifier, the direct-execution
flag and the optional callbacks. Each callback is embedded by its outcome
when invoked (`none` = callback absent, `some (Except.error msg)` = the
callback throws an error with message `msg`). -/
structure TestCase where
  name : String
  filePath : String
  identifier : String
  directExecution : Bool
  fn : Option (Except String Unit)
  beforeFn : Option (Except String Unit)
  afterFn : Option (Except String Unit)
  deriving DecidableEq, Repr

/-- Tagged run state: `reason` is carried next to the status exactly as in
the TypeScript `TestRunState` union (absent for `pending`/`running` runs
built by the transition methods). -/
structure TestRunState where
  status : TestStatus
  reason : Option String
  deriving DecidableEq, Repr

/-- Modelled from the spec: the current schema version
`TestRunRepository.VERSION`; the repository file is missing from the
snapshot, so the concrete value is a model constant (no claim depends on
it, only on equality with it). -/
def repositoryVERSION : Int := 2

/-- A single test execution attempt, from `TestRun` in `test-run.ts`. -/
structure TestRun where
  testCase : TestCase
  runId : String
  timestamp : Nat
  steps : List CacheStep
  tokenUsage : TokenUsage
  version : Int
  executedFromCache : Bool
  state : TestRunState
  deriving DecidableEq, Repr

namespace TestRun

/-- Status accessor (`get status`). -/
def status (r : TestRun) : TestStatus := r.state.status

/-- Reason accessor (`get reason`). -/
def reason (r : TestRun) : Option String := r.state.reason

/-- Replaces `:` and `.` with `-` in the ISO timestamp, as in
`startedAt.toISOString().replace(/[:.]/g, "-")`. -/
def sanitizeIso (s : String) : String :=
  String.mk (s.toList.map (fun c => if c = ':' || c = '.' then '-' else c))

/-- Creates a fresh pending run (`TestRun.create`). The creation instant is
passed explicitly as its ISO rendering and epoch value. -/
def create (tc : TestCase) (startedAtIso : String) (timestamp : Nat) : TestRun :=
  { testCase := tc
    runId := sanitizeIso startedAtIso ++ "_" ++ tc.identifier
    timestamp := timestamp
    steps := []
    tokenUsage := { completionTokens := 0, promptTokens := 0, totalTokens := 0 }
    version := repositoryVERSION
    executedFromCache := false
    state := { status := TestStatus.pending, reason := none } }

/-- Marks the run as running (`markRunning`); fails unless pending. -/
def markRunning (r : TestRun) : Except ShortestError TestRun :=
  if r.status ≠ TestStatus.pending then
    Except.error { message := "Can only start from pending state" }
  else
    Except.ok { r with state := { status := TestStatus.running, reason := none } }

/-- Marks the run as passed (`markPassed`); fails unless running. A supplied
token usage overwrites the running total. -/
def markPassed (r : TestRun) (reason : String) (tokenUsage : Option TokenUsage) :
    Except ShortestError TestRun :=
  if r.status ≠ TestStatus.running then
    Except.error { message := "Can only pass from running state" }
  else
    Except.ok { r with
      state := { status := TestStatus.passed, reason := some reason }
      tokenUsage := tokenUsage.getD r.tokenUsage }

/-- Marks the run as failed (`markFailed`); valid from any state. -/
def markFailed (r : TestRun) (reason : String) (tokenUsage : Option TokenUsage) : TestRun :=
  { r with
    state := { status := TestStatus.failed, reason := some reason }
    tokenUsage := tokenUsage.getD r.tokenUsage }

/-- Marks the run as passed-from-cache (`markPassedFromCache`): delegates to
`markPassed` then raises the `executedFromCache` flag. -/
def markPassedFromCache (r : TestRun) (reason : String) : Except ShortestError TestRun :=
  match r.markPassed reason none with
  | Except.error e => Except.error e
  | Except.ok r' => Except.ok { r' with executedFromCache := true }

/-- Appends a step to the run's log (`addStep`). -/
def addStep (r : TestRun) (step : CacheStep) : TestRun :=
  { r with steps := r.steps ++ [step] }

/-- Returns the step log (`getSteps`; the defensive copy is the identity in
a pure embedding). -/
def getSteps (r : TestRun) : List CacheStep := r.steps

end TestRun

/-- The version field of an on-disk cache entry: a legacy entry may carry a
string where current entries carry a number. -/
inductive VersionField
  | str (s : String)
  | num (n : Int)
  deriving DecidableEq, Repr

/-- Metadata block of an on-disk `CacheEntry`. -/
structure CacheEntryMetadata where
  timestamp : Nat
  version : VersionField
  status : TestStatus
  reason : Option String
  tokenUsage : TokenUsage
  runId : String
  executedFromCache : Bool
  deriving DecidableEq, Repr

/-- Test identification block of an on-disk `CacheEntry`. -/
structure CacheEntryTest where
  name : String
  filePath : String
  deriving DecidableEq, Repr

/-- Data block of an on-disk `CacheEntry`; `steps` is optional in the
serialized form. -/
structure CacheEntryData where
  steps : Option (List CacheStep)
  deriving DecidableEq, Repr

/-- On-disk record of one run (`CacheEntry` in `types/cache`). -/
structure CacheEntry where
  metadata : CacheEntryMetadata
  test : CacheEntryTest
  data : CacheEntryData
  deriving DecidableEq, Repr

/-- JavaScript `parseInt(s, 10) || 0` as used by `fromCache` on a legacy
string version; parse failure yields `0`. (The JS original also accepts
trailing garbage after the digits; no claim depends on that case.) -/
def jsParseIntOrZero (s : String) : Int :=
  (s.toInt?).getD 0

/-- Reconstructs a `TestRun` from a cache entry (`TestRun.fromCache`): the
state, steps and token usage are copied from the entry and a string-typed
legacy version is coerced to an integer. -/
def TestRun.fromCache (tc : TestCase) (e : CacheEntry) : TestRun :=
  { testCase := tc
    runId := e.metadata.runId
    timestamp := e.metadata.timestamp
    executedFromCache := e.metadata.executedFromCache
    version :=
      match e.metadata.version with
      | VersionField.str s => jsParseIntOrZero s
      | VersionField.num n => n
    state := { status := e.metadata.status, reason := e.metadata.reason }
    tokenUsage := e.metadata.tokenUsage
    steps := (e.data.steps).getD [] }

/-- Modelled from the spec: the serialization of a terminal `TestRun` into a
`CacheEntry` document performed by the Cache Store's save path (the
`TestRunRepository` implementation file is missing from the snapshot). The
field layout follows §3: `metadata` holds timestamp, version, status,
reason, tokenUsage, runId and executedFromCache; `test` holds the test
case's name and filePath; `data` holds the step log. -/
def toCacheEntry (r : TestRun) : CacheEntry :=
  { metadata :=
    { timestamp := r.timestamp
      version := VersionField.num r.version
      status := r.status
      reason := r.reason
      tokenUsage := r.tokenUsage
      runId := r.runId
      executedFromCache := r.executedFromCache }
    test := { name := r.testCase.name, filePath := r.testCase.filePath }
    data := { steps := some r.steps } }

/-- Replay eligibility of a stored run: passed, current schema version, and
not itself a cache-replay result. -/
def eligibleForReplay (r : TestRun) : Bool :=
  r.status = TestStatus.passed &&
    r.version = repositoryVERSION && r.executedFromCache = false

/-- Modelled from the spec: `TestRunRepository.getLatestPassedRun` filters
the loaded runs to status `passed`, current version and
`executedFromCache = false`, and returns the last match in enumeration
order, or none. -/
def getLatestPassedRun (runs : List TestRun) : Option TestRun :=
  (runs.filter eligibleForReplay).getLast?

/-- Picks the run with the greatest `timestamp` (first such on ties),
used by the retention policy's no-passed-run branch. -/
def mostRecentRun : List TestRun → Option TestRun
  | [] => none
  | r :: rest =>
    match mostRecentRun rest with
    | none => some r
    | some k => if k.timestamp > r.timestamp then some k else some r

/-- Modelled from the spec: the set of runs `applyRetentionPolicy` deletes,
given the loaded runs for the identifier (§4.2). Every run whose version is
not current is deleted; the remaining runs are partitioned into
cache-executed (untouched) and non-cache-executed; if a non-cache-executed
passed run is eligible, exactly that run is kept and every other
non-cache-executed run is deleted; otherwise only the single
most-recently-timestamped non-cache-executed run is kept. Runs are
identified by their unique `runId`. -/
def retentionDeletes (runs : List TestRun) : List TestRun :=
  match getLatestPassedRun runs with
  | some keep =>
    runs.filter (fun r => !(r.version = repositoryVERSION : Bool)) ++
      (runs.filter (fun r =>
        r.version = repositoryVERSION && r.executedFromCache = false)).filter
        (fun r => !(r.runId = keep.runId : Bool))
  | none =>
    match mostRecentRun (runs.filter (fun r =>
        r.version = repositoryVERSION && r.executedFromCache = false)) with
    | some keep =>
      runs.filter (fun r => !(r.version = repositoryVERSION : Bool)) ++
        (runs.filter (fun r =>
          r.version = repositoryVERSION && r.executedFromCache = false)).filter
          (fun r => !(r.runId = keep.runId : Bool))
    | none => runs.filter (fun r => !(r.version = repositoryVERSION : Bool))

/-- One observable operation of the Cache Store's save path. -/
inductive CacheOp
  | tryAcquireLock (granted : Bool)
  | writeEntry (name : String) (entry : CacheEntry)
  | releaseLock
  deriving DecidableEq, Repr

/-- Whether a store operation writes an entry. -/
def CacheOp.isWrite : CacheOp → Bool
  | CacheOp.writeEntry _ _ => true
  | _ => false

/-- Modelled from the spec: the operation trace of
`TestRunRepository.saveRun` (implementation file missing from the
snapshot). Per §3 a run that is itself a cache-replay result is never
written as a new cache entry, so such a run is skipped outright; otherwise
the save attempts the exclusive identifier-scoped advisory lock — on
contention the save is skipped entirely (no retry, no queue), on success
the run is serialized to a `CacheEntry` named by `runId`, written, and the
lock is released (§4.2). The lock-acquisition outcome is an external
input. -/
def saveRunOps (acquireOk : Bool) (r : TestRun) : List CacheOp :=
  if r.executedFromCache then []
  else if acquireOk then
    [CacheOp.tryAcquireLock true,
     CacheOp.writeEntry r.runId (toCacheEntry r),
     CacheOp.releaseLock]
  else [CacheOp.tryAcquireLock false]

/-- The on-disk cache state: entry documents keyed by file name. -/
abbrev CacheStoreState := List (String × CacheEntry)

/-- Writing an entry document replaces any document of the same name. -/
def storeWrite (store : CacheStoreState) (name : String) (entry : CacheEntry) :
    CacheStoreState :=
  (name, entry) :: store.filter (fun p => !(p.1 = name : Bool))

/-- Effect of one store operation on the on-disk state. -/
def applyCacheOp (store : CacheStoreState) : CacheOp → CacheStoreState
  | CacheOp.writeEntry name entry => storeWrite store name entry
  | _ => store

/-- Effect of a trace of store operations on the on-disk state. -/
def applyCacheOps (store : CacheStoreState) (ops : List CacheOp) : CacheStoreState :=
  ops.foldl applyCacheOp store

/-- The browser collaborator, embedded by its observable responses: the
structural fingerprint of the element at given coordinates
(`getNormalizedComponentStringByCoords`) and whether executing a given
action input succeeds (`browserTool.execute`). -/
structure BrowserOracle where
  fingerprintAt : Int → Int → String
  execOk : ActionInput → Bool

/-- The terminal verdict of the AI decision loop
(`aiClient.runAction` response with its token usage). -/
structure AIResponse where
  status : TestStatus
  reason : String
  usage : TokenUsage
  deriving DecidableEq, Repr

/-- Observable events of one orchestrator `executeTest` call. -/
inductive Event
  | replayAttempt
  | cachedAction (input : ActionInput)
  | navigate (url : String)
  | beforeHook
  | aiRun
  | afterHook
  deriving DecidableEq, Repr

/-- An error escaping `runCachedTest`: either a recoverable `CacheError` or
an ordinary engine error (the orchestrator rethrows the latter). -/
inductive RunnerError
  | cacheErr (e : CacheError)
  | shortestErr (e : ShortestError)
  deriving DecidableEq, Repr

/-- The action name the cached-mode step filter drops
(`InternalActionEnum.SCREENSHOT`). -/
def screenshotActionName : String := "screenshot"

/-- The action name checked for fingerprint validation
(`InternalActionEnum.MOUSE_MOVE`). -/
def mouseMoveActionName : String := "mouse_move"

/-- The cached-mode step filter of `runCachedTest`: a step is kept unless
its action input is a screenshot. -/
def keptInCachedMode (st : CacheStep) : Bool :=
  match st.action with
  | none => true
  | some a => !(a.input.action = screenshotActionName : Bool)

/-- Whether a replayed step fails fingerprint validation: it is a
pointer-move with recorded target coordinates whose recomputed fingerprint
differs from the recorded one. -/
def fingerprintMismatch (oracle : BrowserOracle) (st : CacheStep) (a : CacheAction) : Bool :=
  match a.input.coordinate with
  | some c =>
    decide (a.input.action = mouseMoveActionName) &&
      decide (some (oracle.fingerprintAt c.1 c.2) ≠ st.extras.componentStr)
  | none => false

/-- The per-step replay loop of `runCachedTest`: for each step (after a
settling delay, irrelevant here), a pointer-move with recorded coordinates
has the fingerprint of the element at those coordinates recomputed and
compared to the recorded one — any difference aborts with an invalid cache
error; otherwise the recorded action is executed, an execution failure
aborting the same way. Returns the trace of executed actions and the
outcome. -/
def replaySteps (oracle : BrowserOracle) : List CacheStep → List Event × Except CacheError Unit
  | [] => ([], Except.ok ())
  | st :: rest =>
    match st.action with
    | none => replaySteps oracle rest
    | some a =>
      if fingerprintMismatch oracle st a then
        ([], Except.error { kind := CacheErrorKind.invalid, message := "UI element mismatch" })
      else if oracle.execOk a.input then
        let res := replaySteps oracle rest
        (Event.cachedAction a.input :: res.1, res.2)
      else
        ([Event.cachedAction a.input],
         Except.error { kind := CacheErrorKind.invalid, message := "Error executing cached step" })

/-- `TestRunner.runCachedTest`: fetch the latest eligible passed run from
the repository (absence is a not-found cache error), drop screenshot steps,
reject an empty remainder as invalid, replay the remaining steps in order,
and on full success mark the run passed-from-cache. -/
def runCachedTest (oracle : BrowserOracle) (runs : List TestRun) (testRun : TestRun) :
    List Event × Except RunnerError TestRun :=
  match getLatestPassedRun runs with
  | none =>
    ([], Except.error (RunnerError.cacheErr
      { kind := CacheErrorKind.notFound, message := "No successful cached test run found" }))
  | some latest =>
    let filteredSteps := latest.steps.filter keptInCachedMode
    if filteredSteps.isEmpty then
      ([], Except.error (RunnerError.cacheErr
        { kind := CacheErrorKind.invalid, message := "No eligible steps in cache" }))
    else
      match replaySteps oracle filteredSteps with
      | (tr, Except.error e) => (tr, Except.error (RunnerError.cacheErr e))
      | (tr, Except.ok _) =>
        match testRun.markPassedFromCache "All actions successfully replayed from cache" with
        | Except.ok r => (tr, Except.ok r)
        | Except.error e => (tr, Except.error (RunnerError.shortestErr e))

/-- Environment of one `executeTest` call: the caching configuration flag,
the repository's loaded runs, the browser oracle, the URL captured by the
initial observation, and the AI collaborator's verdict. -/
structure ExecEnv where
  cachingEnabled : Bool
  runs : List TestRun
  oracle : BrowserOracle
  initialUrl : String
  ai : AIResponse

/-- Interpolation of a possibly-absent reason into a template string, as
JavaScript renders `undefined`. -/
def reasonText (r : Option String) : String := r.getD "undefined"

/-- The reason written when an after hook fails on the cached path:
`AI: <reason>, After: <hook message>` when the run is already failed,
otherwise the hook message alone. -/
def cachedAfterReason (r : TestRun) (msg : String) : String :=
  if r.status = TestStatus.failed then
    "AI: " ++ reasonText r.reason ++ ", After: " ++ msg
  else msg

/-- The reason written when an after hook fails on the live path:
`AI: <reason>, After: <hook message>` when the AI verdict is failed,
otherwise the hook message alone. -/
def liveAfterReason (ai : AIResponse) (msg : String) : String :=
  if ai.status = TestStatus.failed then
    "AI: " ++ ai.reason ++ ", After: " ++ msg
  else msg

/-- Rendering of a `TestStatus` for the unexpected-AI-status error. -/
def statusText : TestStatus → String
  | TestStatus.pending => "pending"
  | TestStatus.running => "running"
  | TestStatus.passed => "passed"
  | TestStatus.failed => "failed"

/-- The events of the live path, determined by which callbacks exist and
whether the before hook throws: the before hook (when present) runs first;
unless it threw, the AI loop runs, then the after hook when present. -/
def runLiveTrace (tc : TestCase) : List Event :=
  match tc.beforeFn with
  | some (Except.error _) => [Event.beforeHook]
  | b =>
    (if b.isSome then [Event.beforeHook] else []) ++
      Event.aiRun :: (if tc.afterFn.isSome then [Event.afterHook] else [])

/-- The outcome of the live path: a before-hook failure marks the run
failed and returns; an after-hook failure marks the run failed with the
composed reason and the AI token usage and returns; otherwise the AI
verdict is recorded, an unexpected AI status raising an engine error. -/
def runLiveResult (env : ExecEnv) (tc : TestCase) (testRun : TestRun) :
    Except ShortestError TestRun :=
  match tc.beforeFn with
  | some (Except.error msg) => Except.ok (testRun.markFailed msg none)
  | _ =>
    match tc.afterFn with
    | some (Except.error msg) =>
      Except.ok (testRun.markFailed (liveAfterReason env.ai msg) (some env.ai.usage))
    | _ =>
      match env.ai.status with
      | TestStatus.passed => testRun.markPassed env.ai.reason (some env.ai.usage)
      | TestStatus.failed =>
        Except.ok (testRun.markFailed env.ai.reason (some env.ai.usage))
      | s =>
        Except.error { message := "Unexpected AI response status: " ++ statusText s }

/-- The live (non-cached, non-direct) tail of `TestRunner.executeTest`:
its emitted events and its outcome. -/
def runLive (env : ExecEnv) (tc : TestCase) (testRun : TestRun) :
    List Event × Except ShortestError TestRun :=
  (runLiveTrace tc, runLiveResult env tc testRun)

/-- The outcome of direct execution: the test callback is invoked directly
and the run marked pass/fail from whether it throws; the catch also
converts an invalid-transition error from `markPassed` into a failed run. -/
def runDirectResult (tc : TestCase) (testRun : TestRun) : Except ShortestError TestRun :=
  match tc.fn with
  | some (Except.error msg) => Except.ok (testRun.markFailed msg none)
  | _ =>
    match testRun.markPassed "Direct execution successful" none with
    | Except.ok r => Except.ok r
    | Except.error e => Except.ok (testRun.markFailed e.message none)

/-- The direct-execution branch of `TestRunner.executeTest`: bypasses both
cache and AI, emitting no events. -/
def runDirect (tc : TestCase) (testRun : TestRun) :
    List Event × Except ShortestError TestRun :=
  ([], runDirectResult tc testRun)

/-- The behavior of an `executeTest` call whose cached branch is not taken:
direct execution or, for an ordinary test case, the live path. A call with
`skipCache = true` always reduces to this. -/
def runWithoutCache (env : ExecEnv) (tc : TestCase) (testRun : TestRun) :
    List Event × Except ShortestError TestRun :=
  if tc.directExecution then runDirect tc testRun
  else runLive env tc testRun

/-- `TestRunner.executeTest`: direct execution bypasses cache and AI; with
caching enabled and not skipped, the cached replay is attempted — on
success only the after hook runs (a failure marking the run failed with the
composed reason), on a `CacheError` the page is navigated back to the
initial location and the same run is retried once with caching forced off,
and any other error propagates; otherwise the live path runs. The source's
recursive retry call passes `skipCache = true`, so it can never reach the
cached branch again; that single unfolding is inlined here as
`runWithoutCache` (see `executeTest_skipCache_eq`). -/
def executeTest (env : ExecEnv) (tc : TestCase) (testRun : TestRun) (skipCache : Bool) :
    List Event × Except ShortestError TestRun :=
  if tc.directExecution then runDirect tc testRun
  else if env.cachingEnabled ∧ skipCache = false then
    match runCachedTest env.oracle env.runs testRun with
    | (tr, Except.ok r) =>
      match tc.afterFn with
      | some (Except.error msg) =>
        (Event.replayAttempt :: tr ++ [Event.afterHook],
         Except.ok (r.markFailed (cachedAfterReason r msg) none))
      | some (Except.ok _) =>
        (Event.replayAttempt :: tr ++ [Event.afterHook], Except.ok r)
      | none => (Event.replayAttempt :: tr, Except.ok r)
    | (tr, Except.error (RunnerError.cacheErr _)) =>
      let retry := runWithoutCache env tc testRun
      (Event.replayAttempt :: tr ++ Event.navigate env.initialUrl :: retry.1, retry.2)
    | (tr, Except.error (RunnerError.shortestErr e)) =>
      (Event.replayAttempt :: tr, Except.error e)
  else runLive env tc testRun

/-- Whether `needle` occurs at the head of `hay`. -/
def startsWithList : List Char → List Char → Bool
  | _, [] => true
  | [], _ :: _ => false
  | h :: t, nh :: nt => h = nh && startsWithList t nt

/-- Whether `needle` occurs contiguously anywhere inside `hay`. -/
def containsList : List Char → List Char → Bool
  | [], needle => needle.isEmpty
  | h :: t, needle => startsWithList (h :: t) needle || containsList t needle

/-- Substring test used to state reason-composition properties on concrete
strings. -/
def containsStr (hay needle : String) : Bool :=
  containsList hay.toList needle.toList

/-! Concrete fixtures, mirroring the repository's unit-test data; used by
witness and counterexample theorems. -/

/-- All-zero token usage, the initial value of a fresh run. -/
def zeroUsage : TokenUsage := { completionTokens := 0, promptTokens := 0, totalTokens := 0 }

/-- Sample token usage, as in the repository tests. -/
def usageSample : TokenUsage := { completionTokens := 10, promptTokens := 20, totalTokens := 30 }

/-- A plain non-direct test case with no callbacks. -/
def tcSample : TestCase :=
  { name := "Test case", filePath := "/test.ts", identifier := "test-identifier",
    directExecution := false, fn := none, beforeFn := none, afterFn := none }

/-- A test case whose after hook throws. -/
def tcAfterFail : TestCase :=
  { tcSample with afterFn := some (Except.error "after hook boom") }

/-- A freshly created (pending) run. -/
def runPendingSample : TestRun := TestRun.create tcSample "2023-01-01T00:00:00.000Z" 1000

/-- A run moved to the running state. -/
def runRunningSample : TestRun :=
  { runPendingSample with state := { status := TestStatus.running, reason := none } }

/-- A recorded pointer-move input targeting (10, 20). -/
def moveInputSample : ActionInput := { action := "mouse_move", coordinate := some (10, 20) }

/-- A recorded pointer-move step whose fingerprint was captured as
`fp-recorded`. -/
def stepMoveSample : CacheStep :=
  { reasoning := "hover over button",
    action := some { type := "tool_use", name := "computer", input := moveInputSample },
    timestamp := 5, result := none, extras := { componentStr := some "fp-recorded" } }

/-- A recorded keyboard step with no coordinates. -/
def stepTypeSample : CacheStep :=
  { reasoning := "type text",
    action := some { type := "tool_use", name := "computer",
                     input := { action := "type", coordinate := none } },
    timestamp := 6, result := none, extras := { componentStr := none } }

/-- A stored passed run eligible for replay, whose recording is the
keyboard step followed by the pointer-move step. -/
def latestPassedSample : TestRun :=
  { testCase := tcSample, runId := "run1_test-identifier", timestamp := 500,
    steps := [stepTypeSample, stepMoveSample],
    tokenUsage := usageSample, version := repositoryVERSION, executedFromCache := false,
    state := { status := TestStatus.passed, reason := some "Test passed" } }

/-- A browser whose current fingerprint at any point matches the recording
and whose actions all succeed. -/
def oracleMatching : BrowserOracle :=
  { fingerprintAt := fun _ _ => "fp-recorded", execOk := fun _ => true }

/-- A browser whose current fingerprint differs from the recording. -/
def oracleChangedUi : BrowserOracle :=
  { fingerprintAt := fun _ _ => "fp-live", execOk := fun _ => true }

/-- The AI collaborator passing with a distinctive reason. -/
def aiPassedSample : AIResponse :=
  { status := TestStatus.passed, reason := "AI verdict reason", usage := usageSample }

/-- Environment with an empty repository (cache lookups miss). -/
def envNoRuns : ExecEnv :=
  { cachingEnabled := true, runs := [], oracle := oracleMatching,
    initialUrl := "https://example.com/start", ai := aiPassedSample }

/-- Environment in which the stored run replays cleanly. -/
def envCleanReplay : ExecEnv :=
  { cachingEnabled := true, runs := [latestPassedSample], oracle := oracleMatching,
    initialUrl := "https://example.com/start", ai := aiPassedSample }

/-- A run that was executed from cache (as `saveRun` receives it after a
replayed execution). -/
def cachedRunSample : TestRun :=
  { latestPassedSample with runId := "cached-run", executedFromCache := true }

/-- Retention scenario: the outdated-version passed run. -/
def runOutdatedSample : TestRun :=
  { testCase := tcSample, runId := "outdated-run", timestamp := 4000, steps := [],
    tokenUsage := zeroUsage, version := repositoryVERSION - 1, executedFromCache := false,
    state := { status := TestStatus.passed, reason := some "old pass" } }

/-- Retention scenario: the current-version failed run. -/
def runFailedSample : TestRun :=
  { testCase := tcSample, runId := "failed-current-run", timestamp := 3000, steps := [],
    tokenUsage := zeroUsage, version := repositoryVERSION, executedFromCache := false,
    state := { status := TestStatus.failed, reason := some "boom" } }

/-- Retention scenario: the current-version passed run. -/
def runPassedSample : TestRun :=
  { testCase := tcSample, runId := "passed-current-run", timestamp := 2000, steps := [],
    tokenUsage := zeroUsage, version := repositoryVERSION, executedFromCache := false,
    state := { status := TestStatus.passed, reason := some "fresh pass" } }

/-- Retention scenario: the current-version passed run that was executed
from cache. -/
def runCacheExecSample : TestRun :=
  { testCase := tcSample, runId := "cache-executed-run", timestamp := 1000, steps := [],
    tokenUsage := zeroUsage, version := repositoryVERSION, executedFromCache := true,
    state := { status := TestStatus.passed, reason := some "replayed pass" } }

/-- The mixed-eligibility retention scenario of the spec. -/
def retentionScenario : List TestRun :=
  [runOutdatedSample, runFailedSample, runPassedSample, runCacheExecSample]

/-- A second eligible passed run, older by timestamp but later in
enumeration order than `runPassedSample`. -/
def runPassedOlderSample : TestRun :=
  { runPassedSample with runId := "passed-older-run", timestamp := 1000 }

/-- Enumeration-order scenario for `getLatestPassedRun`: the last eligible
run has the smallest timestamp. -/
def enumOrderRuns : List TestRun :=
  [runOutdatedSample, runFailedSample, runCacheExecSample,
   runPassedSample, runPassedOlderSample]

/-- The run produced by `markPassedFromCache` on `runRunningSample`. -/
def runReplayedSample : TestRun :=
  { runRunningSample with
    state := { status := TestStatus.passed,
               reason := some "All actions successfully replayed from cache" },
    executedFromCache := true }

/-- The run produced by passing `runRunningSample` with reason
"Test passed" and the sample token usage. -/
def runPassedDoneSample : TestRun :=
  { runRunningSample with
    state := { status := TestStatus.passed, reason := some "Test passed" },
    tokenUsage := usageSample }

/-- The AI collaborator failing with a distinctive reason. -/
def aiFailedSample : AIResponse :=
  { status := TestStatus.failed, reason := "AI failed reason", usage := usageSample }

/-- Environment whose AI verdict is failed. -/
def envAiFailed : ExecEnv := { envNoRuns with ai := aiFailedSample }

/-- The executed-action trace of a clean replay of `latestPassedSample`. -/
def cleanReplayTrace : List Event :=
  [Event.cachedAction { action := "type", coordinate := none },
   Event.cachedAction moveInputSample]

/-- Appends a list of steps to a run one at a time via `addStep`. -/
def addSteps (r : TestRun) (steps : List CacheStep) : TestRun :=
  steps.foldl TestRun.addStep r

/-- Serialization to a cache entry followed by reconstruction via
`fromCache`. -/
def roundTrip (tc : TestCase) (r : TestRun) : TestRun :=
  TestRun.fromCache tc (toCacheEntry r)

/-! Helper lemmas shared by several claim theorems. -/

/-- A successful `markPassedFromCache` yields a passed run carrying the
given reason with the `executedFromCache` flag raised. -/
lemma markPassedFromCache_ok (r : TestRun) (reason : String) (r' : TestRun)
    (h : r.markPassedFromCache reason = Except.ok r') :
    r'.status = TestStatus.passed ∧ r'.reason = some reason ∧
      r'.executedFromCache = true := by
  unfold TestRun.markPassedFromCache at h
  cases hm : r.markPassed reason none with
  | error e => rw [hm] at h; cases h
  | ok rr =>
    rw [hm] at h
    cases h
    unfold TestRun.markPassed at hm
    by_cases hs : r.status = TestStatus.running
    · simp [hs] at hm
      cases hm
      exact ⟨rfl, rfl, rfl⟩
    · simp [hs] at hm

/-- A call with `skipCache = true` never takes the cached branch. -/
lemma executeTest_skipCache_eq (env : ExecEnv) (tc : TestCase) (testRun : TestRun) :
    executeTest env tc testRun true = runWithoutCache env tc testRun := by
  unfold executeTest runWithoutCache
  by_cases hd : tc.directExecution <;> simp [hd]

/-- C6: for every TestRun, `markRunning` succeeds iff the state is pending
(otherwise failing with "Can only start from pending state") and leaves the
run running; `markPassed` succeeds iff the state is running (otherwise
failing with "Can only pass from running state") and leaves the run passed
with the given reason; `markFailed` succeeds from every state, setting the
state to failed with the given reason. -/
theorem C6_transition_guards (r : TestRun) (reason : String) (tu : Option TokenUsage) :
    ((∃ r', r.markRunning = Except.ok r') ↔ r.status = TestStatus.pending) ∧
    (r.status ≠ TestStatus.pending →
      r.markRunning = Except.error { message := "Can only start from pending state" }) ∧
    (∀ r', r.markRunning = Except.ok r' → r'.status = TestStatus.running) ∧
    ((∃ r', r.markPassed reason tu = Except.ok r') ↔ r.status = TestStatus.running) ∧
    (r.status ≠ TestStatus.running →
      r.markPassed reason tu = Except.error { message := "Can only pass from running state" }) ∧
    (∀ r', r.markPassed reason tu = Except.ok r' →
      r'.status = TestStatus.passed ∧ r'.reason = some reason) ∧
    (r.markFailed reason tu).status = TestStatus.failed ∧
    (r.markFailed reason tu).reason = some reason := by
  refine ⟨⟨?_, ?_⟩, ?_, ?_, ⟨?_, ?_⟩, ?_, ?_, ?_, ?_⟩
  · rintro ⟨r', h⟩
    by_contra hne
    simp [TestRun.markRunning, hne] at h
  · intro hp
    exact ⟨{ r with state := { status := TestStatus.running, reason := none } },
      by simp [TestRun.markRunning, hp]⟩
  · intro hne
    simp [TestRun.markRunning, hne]
  · intro r' h
    by_cases hp : r.status = TestStatus.pending
    · simp [TestRun.markRunning, hp] at h
      rw [← h]
      rfl
    · simp [TestRun.markRunning, hp] at h
  · rintro ⟨r', h⟩
    by_contra hne
    simp [TestRun.markPassed, hne] at h
  · intro hp
    exact ⟨{ r with
        state := { status := TestStatus.passed, reason := some reason }
        tokenUsage := tu.getD r.tokenUsage },
      by simp [TestRun.markPassed, hp]⟩
  · intro hne
    simp [TestRun.markPassed, hne]
  · intro r' h
    by_cases hp : r.status = TestStatus.running
    · simp [TestRun.markPassed, hp] at h
      rw [← h]
      exact ⟨rfl, rfl⟩
    · simp [TestRun.markPassed, hp] at h
  · rfl
  · rfl

/-- Witness for C6: the concrete running run cannot be started again and
fails with the invalid-transition message, while `markFailed` succeeds on
it. -/
theorem C6_transition_guards_witness :
    runRunningSample.status ≠ TestStatus.pending ∧
    runRunningSample.markRunning =
      Except.error { message := "Can only start from pending state" } ∧
    (runRunningSample.markFailed "stop" none).status = TestStatus.failed :=
  ⟨by decide,
   (C6_transition_guards runRunningSample "stop" none).2.1 (by decide),
   (C6_transition_guards runRunningSample "stop" none).2.2.2.2.2.2.1⟩

/-- C1: a run on which `markPassedFromCache` succeeded carries
`executedFromCache = true`, and on such a run the orchestrator's per-test
persist step performs no store operation whatever the lock outcome — it
writes no cache entry and leaves the on-disk cache state unchanged. -/
theorem C1_cache_replay_never_persisted (r : TestRun) (reason : String) (r' : TestRun)
    (h : r.markPassedFromCache reason = Except.ok r') :
    r'.executedFromCache = true ∧
    ∀ (acquireOk : Bool) (store : CacheStoreState),
      (saveRunOps acquireOk r').countP CacheOp.isWrite = 0 ∧
      applyCacheOps store (saveRunOps acquireOk r') = store := by
  have hx : r'.executedFromCache = true := (markPassedFromCache_ok r reason r' h).2.2
  refine ⟨hx, ?_⟩
  intro acquireOk store
  simp [saveRunOps, hx, applyCacheOps]

/-- Witness for C1: marking the concrete running run passed-from-cache
yields `runReplayedSample`, on which the persist step writes nothing and
leaves an empty store empty. -/
theorem C1_cache_replay_never_persisted_witness :
    runRunningSample.markPassedFromCache "All actions successfully replayed from cache" =
      Except.ok runReplayedSample ∧
    runReplayedSample.executedFromCache = true ∧
    (saveRunOps true runReplayedSample).countP CacheOp.isWrite = 0 ∧
    applyCacheOps [] (saveRunOps true runReplayedSample) = [] :=
  ⟨by decide,
   (C1_cache_replay_never_persisted runRunningSample
      "All actions successfully replayed from cache" runReplayedSample (by decide)).1,
   ((C1_cache_replay_never_persisted runRunningSample
      "All actions successfully replayed from cache" runReplayedSample (by decide)).2 true []).1,
   ((C1_cache_replay_never_persisted runRunningSample
      "All actions successfully replayed from cache" runReplayedSample (by decide)).2 true []).2⟩

/-- C7 counterexample: at a run that is itself a cache-replay result
(`executedFromCache = true`) and with the lock available, `saveRun`
performs no operation at all — it does not attempt the lock and writes no
entry — contradicting the claim that every save first attempts the lock
and, on successful acquisition, writes exactly one entry. -/
theorem C7_counterexample :
    cachedRunSample.executedFromCache = true ∧
    saveRunOps true cachedRunSample = [] ∧
    (saveRunOps true cachedRunSample).countP CacheOp.isWrite = 0 := by decide

/-- C7 (amended): for every run that is not itself a cache-replay result,
`saveRun` first attempts the identifier-scoped lock; if acquisition fails
it returns without writing anything — the store is unchanged and no retry
is attempted — and if acquisition succeeds it writes exactly one CacheEntry
document named by the run's `runId` and then releases the lock. -/
theorem C7_save_lock_protocol (r : TestRun) (h : r.executedFromCache = false)
    (store : CacheStoreState) :
    (saveRunOps false r = [CacheOp.tryAcquireLock false] ∧
     (saveRunOps false r).countP CacheOp.isWrite = 0 ∧
     applyCacheOps store (saveRunOps false r) = store) ∧
    (saveRunOps true r =
      [CacheOp.tryAcquireLock true,
       CacheOp.writeEntry r.runId (toCacheEntry r),
       CacheOp.releaseLock] ∧
     (saveRunOps true r).countP CacheOp.isWrite = 1 ∧
     applyCacheOps store (saveRunOps true r) =
       storeWrite store r.runId (toCacheEntry r)) := by
  simp [saveRunOps, h, applyCacheOps, applyCacheOp, CacheOp.isWrite]

/-- Witness for C7 (amended) at the concrete stored passed run. -/
theorem C7_save_lock_protocol_witness :
    latestPassedSample.executedFromCache = false ∧
    saveRunOps false latestPassedSample = [CacheOp.tryAcquireLock false] ∧
    saveRunOps true latestPassedSample =
      [CacheOp.tryAcquireLock true,
       CacheOp.writeEntry latestPassedSample.runId (toCacheEntry latestPassedSample),
       CacheOp.releaseLock] :=
  ⟨by decide,
   (C7_save_lock_protocol latestPassedSample (by decide) []).1.1,
   (C7_save_lock_protocol latestPassedSample (by decide) []).2.1⟩

/-- Appending steps one at a time changes only the step log, which grows by
exactly the appended steps in order. -/
lemma addSteps_spec (steps : List CacheStep) (r : TestRun) :
    (addSteps r steps).state = r.state ∧
    (addSteps r steps).tokenUsage = r.tokenUsage ∧
    (addSteps r steps).steps = r.steps ++ steps := by
  induction steps generalizing r with
  | nil => simp [addSteps]
  | cons s tl ih =>
    have h := ih (r.addStep s)
    simp only [addSteps, List.foldl_cons] at h ⊢
    simpa [TestRun.addStep, List.append_assoc] using h

/-- C8: a TestRun that was created, marked running, marked passed with a
reason and token usage, and extended with appended steps serializes to a
CacheEntry from which `fromCache` reconstructs a run with identical status
(passed), reason, tokenUsage, and step sequence, the steps in the same
order. -/
theorem C8_cache_round_trip (tc : TestCase) (iso : String) (ts : Nat)
    (reason : String) (usage : TokenUsage) (steps : List CacheStep)
    (r1 r2 : TestRun)
    (h1 : (TestRun.create tc iso ts).markRunning = Except.ok r1)
    (h2 : r1.markPassed reason (some usage) = Except.ok r2) :
    (roundTrip tc (addSteps r2 steps)).status = (addSteps r2 steps).status ∧
    (roundTrip tc (addSteps r2 steps)).status = TestStatus.passed ∧
    (roundTrip tc (addSteps r2 steps)).reason = (addSteps r2 steps).reason ∧
    (roundTrip tc (addSteps r2 steps)).reason = some reason ∧
    (roundTrip tc (addSteps r2 steps)).tokenUsage = (addSteps r2 steps).tokenUsage ∧
    (roundTrip tc (addSteps r2 steps)).tokenUsage = usage ∧
    (roundTrip tc (addSteps r2 steps)).getSteps = (addSteps r2 steps).getSteps ∧
    (roundTrip tc (addSteps r2 steps)).getSteps = steps := by
  have hadd := addSteps_spec steps r2
  have hcreate : (TestRun.create tc iso ts).status = TestStatus.pending := rfl
  rw [show (TestRun.create tc iso ts).markRunning =
      Except.ok { TestRun.create tc iso ts with
        state := { status := TestStatus.running, reason := none } } from rfl] at h1
  cases h1
  rw [show TestRun.markPassed
      { TestRun.create tc iso ts with
        state := { status := TestStatus.running, reason := none } } reason (some usage) =
      Except.ok { TestRun.create tc iso ts with
        state := { status := TestStatus.passed, reason := some reason }
        tokenUsage := usage } from rfl] at h2
  cases h2
  refine ⟨rfl, ?_, rfl, ?_, rfl, ?_, rfl, ?_⟩
  · show (addSteps _ steps).state.status = TestStatus.passed
    rw [hadd.1]
  · show (addSteps _ steps).state.reason = some reason
    rw [hadd.1]
  · show (addSteps _ steps).tokenUsage = usage
    rw [hadd.2.1]
  · show (addSteps _ steps).steps = steps
    rw [hadd.2.2]
    rfl

/-- Witness for C8: the concrete pipeline through `runPendingSample`,
`runRunningSample` and `runPassedDoneSample` with two appended steps
round-trips with status passed and both steps in order. -/
theorem C8_cache_round_trip_witness :
    runPendingSample.markRunning = Except.ok runRunningSample ∧
    runRunningSample.markPassed "Test passed" (some usageSample) =
      Except.ok runPassedDoneSample ∧
    (roundTrip tcSample
        (addSteps runPassedDoneSample [stepTypeSample, stepMoveSample])).status =
      TestStatus.passed ∧
    (roundTrip tcSample
        (addSteps runPassedDoneSample [stepTypeSample, stepMoveSample])).getSteps =
      [stepTypeSample, stepMoveSample] :=
  ⟨by decide, by decide,
   (C8_cache_round_trip tcSample "2023-01-01T00:00:00.000Z" 1000 "Test passed"
      usageSample [stepTypeSample, stepMoveSample] runRunningSample
      runPassedDoneSample (by decide) (by decide)).2.1,
   (C8_cache_round_trip tcSample "2023-01-01T00:00:00.000Z" 1000 "Test passed"
      usageSample [stepTypeSample, stepMoveSample] runRunningSample
      runPassedDoneSample (by decide) (by decide)).2.2.2.2.2.2.2⟩

/-- The last element of a filtered list satisfies the filter and is the
last element of the original list satisfying it: nothing after it does. -/
lemma getLast?_filter_some {p : TestRun → Bool} {l : List TestRun} {r : TestRun}
    (h : (l.filter p).getLast? = some r) :
    p r = true ∧ ∃ pre post, l = pre ++ r :: post ∧ ∀ q ∈ post, p q = false := by
  induction l using List.reverseRecOn with
  | nil => simp at h
  | append_singleton l a ih =>
    rw [List.filter_append] at h
    by_cases hp : p a
    · rw [show List.filter p [a] = [a] by simp [hp], List.getLast?_concat] at h
      cases h
      exact ⟨hp, l, [], rfl, by simp⟩
    · rw [show List.filter p [a] = [] by simp [hp], List.append_nil] at h
      obtain ⟨hpr, pre, post, heq, hpost⟩ := ih h
      refine ⟨hpr, pre, post ++ [a], by rw [heq]; simp, ?_⟩
      intro q hq
      rcases List.mem_append.1 hq with hq | hq
      · exact hpost q hq
      · rw [List.mem_singleton.1 hq]
        exact Bool.eq_false_iff.2 hp

/-- Unfolds the boolean eligibility test into its three conditions. -/
lemma eligibleForReplay_iff (r : TestRun) :
    eligibleForReplay r = true ↔
      (r.status = TestStatus.passed ∧ r.version = repositoryVERSION ∧
        r.executedFromCache = false) := by
  simp [eligibleForReplay, Bool.and_eq_true, decide_eq_true_eq, and_assoc]

/-- C5: `getLatestPassedRun` returns, among the loaded runs, the last one
in enumeration order satisfying status = passed, version = current schema
version and executedFromCache = false, and returns none exactly when no run
satisfies all three conditions; timestamps play no role. -/
theorem C5_latest_passed_characterization (runs : List TestRun) :
    (getLatestPassedRun runs = none ↔
      ∀ r ∈ runs, ¬(r.status = TestStatus.passed ∧ r.version = repositoryVERSION ∧
        r.executedFromCache = false)) ∧
    ∀ r, getLatestPassedRun runs = some r →
      (r.status = TestStatus.passed ∧ r.version = repositoryVERSION ∧
        r.executedFromCache = false) ∧
      ∃ pre post, runs = pre ++ r :: post ∧
        ∀ q ∈ post, ¬(q.status = TestStatus.passed ∧ q.version = repositoryVERSION ∧
          q.executedFromCache = false) := by
  constructor
  · unfold getLatestPassedRun
    rw [List.getLast?_eq_none_iff, List.filter_eq_nil_iff]
    constructor
    · intro h r hr
      have := h r hr
      rw [eligibleForReplay_iff] at this
      exact this
    · intro h r hr
      rw [eligibleForReplay_iff]
      exact h r hr
  · intro r h
    obtain ⟨hpr, pre, post, heq, hpost⟩ := getLast?_filter_some h
    refine ⟨(eligibleForReplay_iff r).1 hpr, pre, post, heq, ?_⟩
    intro q hq
    have := hpost q hq
    rw [Bool.eq_false_iff] at this
    intro hc
    exact this ((eligibleForReplay_iff q).2 hc)

/-- Witness for C5: in the enumeration-order scenario the returned run is
the last eligible one even though its timestamp is smaller than an earlier
eligible run's. -/
theorem C5_latest_passed_characterization_witness :
    getLatestPassedRun enumOrderRuns = some runPassedOlderSample ∧
    runPassedOlderSample.timestamp < runPassedSample.timestamp ∧
    runPassedOlderSample.status = TestStatus.passed ∧
    runPassedOlderSample.version = repositoryVERSION ∧
    runPassedOlderSample.executedFromCache = false :=
  ⟨by decide, by decide,
   ((C5_latest_passed_characterization enumOrderRuns).2 runPassedOlderSample (by decide)).1.1,
   ((C5_latest_passed_characterization enumOrderRuns).2 runPassedOlderSample (by decide)).1.2.1,
   ((C5_latest_passed_characterization enumOrderRuns).2 runPassedOlderSample (by decide)).1.2.2⟩

/-- A nonempty list always has a most recent run. -/
lemma mostRecentRun_eq_none : ∀ l : List TestRun, mostRecentRun l = none → l = [] := by
  intro l h
  cases l with
  | nil => rfl
  | cons x xs =>
    unfold mostRecentRun at h
    cases hx : mostRecentRun xs with
    | none => rw [hx] at h; simp at h
    | some k =>
      rw [hx] at h
      by_cases hc : x.timestamp < k.timestamp <;> simp [hc] at h

/-- `mostRecentRun` returns a member of the list whose timestamp bounds
every member's timestamp. -/
lemma mostRecentRun_spec :
    ∀ (l : List TestRun) (k : TestRun), mostRecentRun l = some k →
      k ∈ l ∧ ∀ r ∈ l, r.timestamp ≤ k.timestamp := by
  intro l
  induction l with
  | nil => intro k h; simp [mostRecentRun] at h
  | cons r rest ih =>
    intro k h
    unfold mostRecentRun at h
    cases hm : mostRecentRun rest with
    | none =>
      rw [hm] at h
      simp only [Option.some.injEq] at h
      cases h
      have hrest : rest = [] := mostRecentRun_eq_none rest hm
      subst hrest
      exact ⟨List.mem_singleton.2 rfl, by simp⟩
    | some k' =>
      rw [hm] at h
      simp only [] at h
      obtain ⟨hk'm, hk'b⟩ := ih k' hm
      by_cases hgt : k'.timestamp > r.timestamp
      · rw [if_pos hgt] at h
        cases h
        refine ⟨List.mem_cons_of_mem r hk'm, ?_⟩
        intro q hq
        rcases List.mem_cons.1 hq with hq | hq
        · rw [hq]; exact Nat.le_of_lt hgt
        · exact hk'b q hq
      · rw [if_neg hgt] at h
        cases h
        refine ⟨List.mem_cons_self _ _, ?_⟩
        intro q hq
        rcases List.mem_cons.1 hq with hq | hq
        · rw [hq]
        · exact Nat.le_trans (hk'b q hq) (Nat.le_of_not_lt hgt)

/-- C3: `applyRetentionPolicy` deletes every run whose version is not the
current schema version; among current-version runs it never deletes a
cache-executed run; when a latest eligible passed run exists it is kept and
every other current-version non-cache-executed run is deleted; otherwise
only the single most-recently-timestamped current-version
non-cache-executed run is kept and the rest are deleted. -/
theorem C3_retention_policy (runs : List TestRun) :
    (∀ r ∈ runs, r.version ≠ repositoryVERSION → r ∈ retentionDeletes runs) ∧
    (∀ r ∈ retentionDeletes runs,
      r.version ≠ repositoryVERSION ∨ r.executedFromCache = false) ∧
    (∀ keep, getLatestPassedRun runs = some keep →
      keep ∉ retentionDeletes runs ∧
      ∀ r ∈ runs, r.version = repositoryVERSION → r.executedFromCache = false →
        r.runId ≠ keep.runId → r ∈ retentionDeletes runs) ∧
    (getLatestPassedRun runs = none →
      ∀ keep, mostRecentRun (runs.filter (fun r =>
          r.version = repositoryVERSION && r.executedFromCache = false)) = some keep →
        keep ∉ retentionDeletes runs ∧
        (∀ r ∈ runs, r.version = repositoryVERSION → r.executedFromCache = false →
          r.timestamp ≤ keep.timestamp) ∧
        ∀ r ∈ runs, r.version = repositoryVERSION → r.executedFromCache = false →
          r.runId ≠ keep.runId → r ∈ retentionDeletes runs) := by
  refine ⟨?_, ?_, ?_, ?_⟩
  · intro r hr hv
    have hout : r ∈ runs.filter (fun q => !(q.version = repositoryVERSION : Bool)) :=
      List.mem_filter.2 ⟨hr, by simp [hv]⟩
    unfold retentionDeletes
    cases getLatestPassedRun runs with
    | some keep => exact List.mem_append_left _ hout
    | none =>
      cases mostRecentRun (runs.filter (fun q =>
          q.version = repositoryVERSION && q.executedFromCache = false)) with
      | some keep => exact List.mem_append_left _ hout
      | none => exact hout
  · intro r hr
    unfold retentionDeletes at hr
    have houtdated : ∀ q : TestRun,
        q ∈ runs.filter (fun q => !(q.version = repositoryVERSION : Bool)) →
        q.version ≠ repositoryVERSION ∨ q.executedFromCache = false := by
      intro q hq
      have := (List.mem_filter.1 hq).2
      simp at this
      exact Or.inl this
    have hnoncache : ∀ (keep : TestRun) (q : TestRun),
        q ∈ (runs.filter (fun q =>
          q.version = repositoryVERSION && q.executedFromCache = false)).filter
            (fun q => !(q.runId = keep.runId : Bool)) →
        q.version ≠ repositoryVERSION ∨ q.executedFromCache = false := by
      intro keep q hq
      have := (List.mem_filter.1 (List.mem_filter.1 hq).1).2
      simp [Bool.and_eq_true, decide_eq_true_eq] at this
      exact Or.inr this.2
    revert hr
    cases getLatestPassedRun runs with
    | some keep =>
      intro hr
      rcases List.mem_append.1 hr with hr | hr
      · exact houtdated r hr
      · exact hnoncache keep r hr
    | none =>
      cases mostRecentRun (runs.filter (fun q =>
          q.version = repositoryVERSION && q.executedFromCache = false)) with
      | some keep =>
        intro hr
        rcases List.mem_append.1 hr with hr | hr
        · exact houtdated r hr
        · exact hnoncache keep r hr
      | none =>
        intro hr
        exact houtdated r hr
  · intro keep hkeep
    have helig := (eligibleForReplay_iff keep).1 (getLast?_filter_some hkeep).1
    constructor
    · intro hmem
      unfold retentionDeletes at hmem
      rw [hkeep] at hmem
      rcases List.mem_append.1 hmem with hmem | hmem
      · have := (List.mem_filter.1 hmem).2
        simp [helig.2.1] at this
      · have := (List.mem_filter.1 hmem).2
        simp at this
    · intro r hr hv hc hid
      unfold retentionDeletes
      rw [hkeep]
      refine List.mem_append_right _ (List.mem_filter.2 ⟨List.mem_filter.2 ⟨hr, ?_⟩, ?_⟩)
      · simp [hv, hc]
      · simp [hid]
  · intro hnone keep hmr
    obtain ⟨hkm, hkb⟩ := mostRecentRun_spec _ keep hmr
    have hkf := List.mem_filter.1 hkm
    have hkprops : keep.version = repositoryVERSION ∧ keep.executedFromCache = false := by
      have := hkf.2
      simpa [Bool.and_eq_true, decide_eq_true_eq] using this
    refine ⟨?_, ?_, ?_⟩
    · intro hmem
      unfold retentionDeletes at hmem
      rw [hnone, hmr] at hmem
      rcases List.mem_append.1 hmem with hmem | hmem
      · have := (List.mem_filter.1 hmem).2
        simp [hkprops.1] at this
      · have := (List.mem_filter.1 hmem).2
        simp at this
    · intro r hr hv hc
      exact hkb r (List.mem_filter.2 ⟨hr, by simp [hv, hc]⟩)
    · intro r hr hv hc hid
      unfold retentionDeletes
      rw [hnone, hmr]
      refine List.mem_append_right _ (List.mem_filter.2 ⟨List.mem_filter.2 ⟨hr, ?_⟩, ?_⟩)
      · simp [hv, hc]
      · simp [hid]

/-- Witness for C3: in the mixed scenario the outdated run and the failed
run are deleted, the current passed run is kept, and the cache-executed run
is untouched. -/
theorem C3_retention_policy_witness :
    retentionDeletes retentionScenario = [runOutdatedSample, runFailedSample] ∧
    runOutdatedSample ∈ retentionDeletes retentionScenario ∧
    runPassedSample ∉ retentionDeletes retentionScenario ∧
    runCacheExecSample ∉ retentionDeletes retentionScenario :=
  ⟨by decide,
   (C3_retention_policy retentionScenario).1 runOutdatedSample (by decide) (by decide),
   by decide, by decide⟩

/-- Replaying past a cleanly replayed leading segment appends traces and
takes the remainder's outcome. -/
lemma replaySteps_append_clean (oracle : BrowserOracle) (pre rest : List CacheStep)
    (h : (replaySteps oracle pre).2 = Except.ok ()) :
    replaySteps oracle (pre ++ rest) =
      ((replaySteps oracle pre).1 ++ (replaySteps oracle rest).1,
       (replaySteps oracle rest).2) := by
  induction pre with
  | nil => simp [replaySteps]
  | cons st tl ih =>
    cases ha : st.action with
    | none =>
      have h2 : (replaySteps oracle tl).2 = Except.ok () := by
        simpa [replaySteps, ha] using h
      simp [replaySteps, ha, ih h2]
    | some a =>
      by_cases hm : fingerprintMismatch oracle st a
      · simp [replaySteps, ha, hm] at h
      · by_cases he : oracle.execOk a.input
        · have h2 : (replaySteps oracle tl).2 = Except.ok () := by
            simpa [replaySteps, ha, hm, he] using h
          simp [replaySteps, ha, hm, he, ih h2]
        · simp [replaySteps, ha, hm, he] at h

/-- A pointer-move step whose recorded fingerprint differs from the live
one aborts the replay immediately: nothing is executed and the outcome is
the invalid "UI element mismatch" cache error. -/
lemma replaySteps_mismatch_head (oracle : BrowserOracle) (s : CacheStep)
    (post : List CacheStep) (a : CacheAction) (ha : s.action = some a)
    (hm : fingerprintMismatch oracle s a = true) :
    replaySteps oracle (s :: post) =
      ([], Except.error { kind := CacheErrorKind.invalid, message := "UI element mismatch" }) := by
  simp [replaySteps, ha, hm]

/-- C2: during cached replay, a replayed pointer-move step with recorded
target coordinates whose recomputed fingerprint differs from the recorded
one aborts the entire replay with the invalid "UI element mismatch" cache
error: the call's executed-action trace is exactly that of the steps before
it, so neither this step nor any subsequent step of the recorded sequence
is executed. -/
theorem C2_fingerprint_mismatch_aborts (oracle : BrowserOracle) (runs : List TestRun)
    (testRun latest : TestRun) (pre post : List CacheStep) (s : CacheStep)
    (a : CacheAction) (x y : Int)
    (hlatest : getLatestPassedRun runs = some latest)
    (hsteps : latest.steps.filter keptInCachedMode = pre ++ s :: post)
    (hpre : (replaySteps oracle pre).2 = Except.ok ())
    (ha : s.action = some a)
    (hmove : a.input.action = mouseMoveActionName)
    (hcoord : a.input.coordinate = some (x, y))
    (hfp : some (oracle.fingerprintAt x y) ≠ s.extras.componentStr) :
    runCachedTest oracle runs testRun =
      ((replaySteps oracle pre).1,
       Except.error (RunnerError.cacheErr
         { kind := CacheErrorKind.invalid, message := "UI element mismatch" })) := by
  have hm : fingerprintMismatch oracle s a = true := by
    simp [fingerprintMismatch, hcoord, hmove, hfp]
  have hrepl : replaySteps oracle (pre ++ s :: post) =
      ((replaySteps oracle pre).1,
       Except.error { kind := CacheErrorKind.invalid, message := "UI element mismatch" }) := by
    rw [replaySteps_append_clean oracle pre (s :: post) hpre,
        replaySteps_mismatch_head oracle s post a ha hm]
    simp
  have hne : (pre ++ s :: post).isEmpty = false := by
    cases pre <;> simp
  unfold runCachedTest
  rw [hlatest]
  simp only [hsteps, hne, Bool.false_eq_true, if_false, hrepl]

/-- Witness for C2: replaying the stored run against the browser whose UI
changed aborts at the pointer-move step; only the leading keyboard step was
executed and the outcome is the invalid "UI element mismatch" error. -/
theorem C2_fingerprint_mismatch_aborts_witness :
    getLatestPassedRun [latestPassedSample] = some latestPassedSample ∧
    (replaySteps oracleChangedUi [stepTypeSample]).1 =
      [Event.cachedAction { action := "type", coordinate := none }] ∧
    runCachedTest oracleChangedUi [latestPassedSample] runRunningSample =
      ((replaySteps oracleChangedUi [stepTypeSample]).1,
       Except.error (RunnerError.cacheErr
         { kind := CacheErrorKind.invalid, message := "UI element mismatch" })) :=
  ⟨by decide, by decide,
   C2_fingerprint_mismatch_aborts oracleChangedUi [latestPassedSample]
     runRunningSample latestPassedSample [stepTypeSample] [] stepMoveSample
     { type := "tool_use", name := "computer", input := moveInputSample } 10 20
     (by decide) (by decide) (by decide) (by decide) (by decide) (by decide) (by decide)⟩

/-- Every event emitted by the replay loop is an executed cached action. -/
lemma replaySteps_trace_cachedAction (oracle : BrowserOracle) (l : List CacheStep) :
    ∀ e ∈ (replaySteps oracle l).1, ∃ i, e = Event.cachedAction i := by
  induction l with
  | nil => simp [replaySteps]
  | cons st tl ih =>
    cases ha : st.action with
    | none => simpa [replaySteps, ha] using ih
    | some a =>
      by_cases hm : fingerprintMismatch oracle st a
      · simp [replaySteps, ha, hm]
      · by_cases he : oracle.execOk a.input
        · intro e hemem
          simp only [replaySteps, ha, hm, he] at hemem
          simp at hemem
          rcases hemem with hemem | hemem
          · exact ⟨a.input, hemem⟩
          · exact ih e hemem
        · simp [replaySteps, ha, hm, he]

/-- Every event emitted by `runCachedTest` is an executed cached action. -/
lemma runCachedTest_trace_cachedAction (oracle : BrowserOracle) (runs : List TestRun)
    (testRun : TestRun) :
    ∀ e ∈ (runCachedTest oracle runs testRun).1, ∃ i, e = Event.cachedAction i := by
  unfold runCachedTest
  cases hg : getLatestPassedRun runs with
  | none => simp
  | some latest =>
    by_cases hemp : (latest.steps.filter keptInCachedMode).isEmpty
    · simp [hemp]
    · simp only [hemp, Bool.false_eq_true, if_false]
      rcases hr : replaySteps oracle (latest.steps.filter keptInCachedMode) with ⟨tr, res⟩
      have htr : ∀ e ∈ tr, ∃ i, e = Event.cachedAction i := by
        intro e hmem
        exact replaySteps_trace_cachedAction oracle _ e (by rw [hr]; exact hmem)
      cases res with
      | error ce => simpa using htr
      | ok u =>
        cases testRun.markPassedFromCache "All actions successfully replayed from cache" with
        | ok rr => simpa using htr
        | error se => simpa using htr

/-- Every event emitted by the live path is a hook invocation or the AI
loop; in particular the live path never attempts replay or navigates. -/
lemma runLive_trace_mem (env : ExecEnv) (tc : TestCase) (testRun : TestRun) :
    ∀ e ∈ (runLive env tc testRun).1,
      e = Event.beforeHook ∨ e = Event.aiRun ∨ e = Event.afterHook := by
  intro e hmem
  unfold runLive runLiveTrace at hmem
  rcases hb : tc.beforeFn with _ | xb
  · rw [hb] at hmem
    by_cases ha : tc.afterFn.isSome <;> simp [ha] at hmem <;> tauto
  · cases xb with
    | error m =>
      rw [hb] at hmem
      simp at hmem
      tauto
    | ok u =>
      rw [hb] at hmem
      by_cases ha : tc.afterFn.isSome <;> simp [ha] at hmem <;> tauto

/-- The live path emits a before-hook event only when the test case has a
before callback. -/
lemma beforeHook_mem_runLive (env : ExecEnv) (tc : TestCase) (testRun : TestRun)
    (h : Event.beforeHook ∈ (runLive env tc testRun).1) : tc.beforeFn.isSome = true := by
  by_contra hn
  have hnone : tc.beforeFn = none := by
    cases hb : tc.beforeFn
    · rfl
    · rw [hb] at hn; simp at hn
  unfold runLive runLiveTrace at h
  rw [hnone] at h
  by_cases ha : tc.afterFn.isSome <;> simp [ha] at h

/-- The retry path (direct or live) never attempts replay. -/
lemma replayAttempt_not_mem_runWithoutCache (env : ExecEnv) (tc : TestCase)
    (testRun : TestRun) :
    Event.replayAttempt ∉ (runWithoutCache env tc testRun).1 := by
  intro hmem
  unfold runWithoutCache at hmem
  by_cases hd : tc.directExecution
  · rw [if_pos hd] at hmem
    simp [runDirect] at hmem
  · rw [if_neg hd] at hmem
    rcases runLive_trace_mem env tc testRun Event.replayAttempt hmem with h | h | h <;> cases h

/-- A successful `runCachedTest` returns the run marked passed-from-cache:
passed, with the replay reason and the `executedFromCache` flag raised. -/
lemma runCachedTest_ok_flags (oracle : BrowserOracle) (runs : List TestRun)
    (testRun : TestRun) (tr : List Event) (r : TestRun)
    (h : runCachedTest oracle runs testRun = (tr, Except.ok r)) :
    r.status = TestStatus.passed ∧
    r.reason = some "All actions successfully replayed from cache" ∧
    r.executedFromCache = true := by
  unfold runCachedTest at h
  cases hg : getLatestPassedRun runs with
  | none => rw [hg] at h; simp at h
  | some latest =>
    rw [hg] at h
    by_cases hemp : (latest.steps.filter keptInCachedMode).isEmpty
    · simp [hemp] at h
    · simp only [hemp, Bool.false_eq_true, if_false] at h
      rcases hre : replaySteps oracle (latest.steps.filter keptInCachedMode) with ⟨tr', res⟩
      rw [hre] at h
      cases res with
      | error ce => simp at h
      | ok u =>
        cases hmp : testRun.markPassedFromCache
            "All actions successfully replayed from cache" with
        | error se => rw [hmp] at h; simp at h
        | ok rr =>
          rw [hmp] at h
          simp only [Prod.mk.injEq, Except.ok.injEq] at h
          rw [← h.2]
          exact markPassedFromCache_ok testRun _ rr hmp

/-- C4: when cached replay fails with a `CacheError`, `executeTest` catches
exactly that error class, navigates back to the initial location, and
retries the same run once via the live path with caching forced off (the
retry call, with `skipCache = true`, is the live path and never attempts
replay again: the whole trace attempts replay exactly once); any non-cache
error from the replay attempt propagates instead. -/
theorem C4_cache_error_fallback (env : ExecEnv) (tc : TestCase) (testRun : TestRun)
    (hdirect : tc.directExecution = false) (hcaching : env.cachingEnabled = true) :
    (∀ tr e, runCachedTest env.oracle env.runs testRun =
        (tr, Except.error (RunnerError.cacheErr e)) →
      executeTest env tc testRun false =
        (Event.replayAttempt :: tr ++
           Event.navigate env.initialUrl :: (executeTest env tc testRun true).1,
         (executeTest env tc testRun true).2) ∧
      executeTest env tc testRun true = runLive env tc testRun ∧
      (executeTest env tc testRun false).1.count Event.replayAttempt = 1) ∧
    (∀ tr e, runCachedTest env.oracle env.runs testRun =
        (tr, Except.error (RunnerError.shortestErr e)) →
      executeTest env tc testRun false = (Event.replayAttempt :: tr, Except.error e)) := by
  have hwc : runWithoutCache env tc testRun = runLive env tc testRun := by
    unfold runWithoutCache
    rw [if_neg (by simp [hdirect])]
  have hskip : executeTest env tc testRun true = runLive env tc testRun := by
    rw [executeTest_skipCache_eq, hwc]
  constructor
  · intro tr e hrc
    have hfold : executeTest env tc testRun false =
        (Event.replayAttempt :: tr ++
           Event.navigate env.initialUrl :: (runWithoutCache env tc testRun).1,
         (runWithoutCache env tc testRun).2) := by
      unfold executeTest
      rw [if_neg (by simp [hdirect]), if_pos ⟨hcaching, rfl⟩, hrc]
    have htr0 : Event.replayAttempt ∉ tr := by
      intro hmem
      obtain ⟨i, hi⟩ := runCachedTest_trace_cachedAction env.oracle env.runs testRun
        Event.replayAttempt (by rw [hrc]; exact hmem)
      cases hi
    have hlive0 : Event.replayAttempt ∉ (runWithoutCache env tc testRun).1 :=
      replayAttempt_not_mem_runWithoutCache env tc testRun
    refine ⟨?_, hskip, ?_⟩
    · rw [hfold, executeTest_skipCache_eq]
    · rw [hfold]
      simp [List.count_cons, List.count_append, List.count_eq_zero.2 htr0,
        List.count_eq_zero.2 hlive0]
  · intro tr e hrc
    unfold executeTest
    rw [if_neg (by simp [hdirect]), if_pos ⟨hcaching, rfl⟩, hrc]

/-- C10: when the cached replay succeeds for a non-direct test case, the
before callback is never invoked (no before-hook event appears in the
trace) and the after callback runs exactly when it exists; in general a
before-hook event can only appear when the live path was taken, that is,
with caching skipped or after a cache error from the replay attempt. -/
theorem C10_before_hook_skipped_on_cached_path (env : ExecEnv) (tc : TestCase)
    (testRun : TestRun) (hdirect : tc.directExecution = false)
    (hcaching : env.cachingEnabled = true) :
    (∀ tr r, runCachedTest env.oracle env.runs testRun = (tr, Except.ok r) →
      Event.beforeHook ∉ (executeTest env tc testRun false).1 ∧
      (Event.afterHook ∈ (executeTest env tc testRun false).1 ↔
        tc.afterFn.isSome = true)) ∧
    (∀ skipCache, Event.beforeHook ∈ (executeTest env tc testRun skipCache).1 →
      tc.beforeFn.isSome = true ∧
      (skipCache = true ∨
       ∃ tr e, runCachedTest env.oracle env.runs testRun =
         (tr, Except.error (RunnerError.cacheErr e)))) := by
  have hwc : runWithoutCache env tc testRun = runLive env tc testRun := by
    unfold runWithoutCache
    rw [if_neg (by simp [hdirect])]
  constructor
  · intro tr r hrc
    have htrb : Event.beforeHook ∉ tr := by
      intro hmem
      obtain ⟨i, hi⟩ := runCachedTest_trace_cachedAction env.oracle env.runs testRun
        Event.beforeHook (by rw [hrc]; exact hmem)
      cases hi
    have htra : Event.afterHook ∉ tr := by
      intro hmem
      obtain ⟨i, hi⟩ := runCachedTest_trace_cachedAction env.oracle env.runs testRun
        Event.afterHook (by rw [hrc]; exact hmem)
      cases hi
    rcases ha : tc.afterFn with _ | xa
    · have hx : executeTest env tc testRun false = (Event.replayAttempt :: tr, Except.ok r) := by
        unfold executeTest
        rw [if_neg (by simp [hdirect]), if_pos ⟨hcaching, rfl⟩, hrc, ha]
      rw [hx]
      refine ⟨?_, ?_⟩
      · intro hmem
        rcases List.mem_cons.1 hmem with h | h
        · simp at h
        · exact htrb h
      · simp only [Option.isSome_none, Bool.false_eq_true, iff_false]
        intro hmem
        rcases List.mem_cons.1 hmem with h | h
        · simp at h
        · exact htra h
    · have hx : (executeTest env tc testRun false).1 =
          Event.replayAttempt :: tr ++ [Event.afterHook] := by
        unfold executeTest
        rw [if_neg (by simp [hdirect]), if_pos ⟨hcaching, rfl⟩, hrc, ha]
        cases xa <;> rfl
      rw [hx]
      refine ⟨?_, ?_⟩
      · intro hmem
        rcases List.mem_cons.1 hmem with h | h
        · simp at h
        · rcases List.mem_append.1 h with h | h
          · exact htrb h
          · simp at h
      · simp only [Option.isSome_some, iff_true]
        exact List.mem_cons_of_mem _ (List.mem_append_right _ (List.mem_singleton.2 rfl))
  · intro skipCache hmem
    cases skipCache with
    | true =>
      rw [executeTest_skipCache_eq, hwc] at hmem
      exact ⟨beforeHook_mem_runLive env tc testRun hmem, Or.inl rfl⟩
    | false =>
      rcases hrc : runCachedTest env.oracle env.runs testRun with ⟨tr, res⟩
      have htrb : Event.beforeHook ∉ tr := by
        intro hm
        obtain ⟨i, hi⟩ := runCachedTest_trace_cachedAction env.oracle env.runs testRun
          Event.beforeHook (by rw [hrc]; exact hm)
        cases hi
      cases res with
      | ok r =>
        exfalso
        rcases ha : tc.afterFn with _ | xa
        · have hx : executeTest env tc testRun false =
              (Event.replayAttempt :: tr, Except.ok r) := by
            unfold executeTest
            rw [if_neg (by simp [hdirect]), if_pos ⟨hcaching, rfl⟩, hrc, ha]
          rw [hx] at hmem
          rcases List.mem_cons.1 hmem with h | h
          · simp at h
          · exact htrb h
        · have hx : (executeTest env tc testRun false).1 =
              Event.replayAttempt :: tr ++ [Event.afterHook] := by
            unfold executeTest
            rw [if_neg (by simp [hdirect]), if_pos ⟨hcaching, rfl⟩, hrc, ha]
            cases xa <;> rfl
          rw [hx] at hmem
          rcases List.mem_cons.1 hmem with h | h
          · simp at h
          · rcases List.mem_append.1 h with h | h
            · exact htrb h
            · simp at h
      | error err =>
        cases err with
        | cacheErr e =>
          have hx : executeTest env tc testRun false =
              (Event.replayAttempt :: tr ++
                 Event.navigate env.initialUrl :: (runWithoutCache env tc testRun).1,
               (runWithoutCache env tc testRun).2) := by
            unfold executeTest
            rw [if_neg (by simp [hdirect]), if_pos ⟨hcaching, rfl⟩, hrc]
          rw [hx] at hmem
          rcases List.mem_cons.1 hmem with h | h
          · simp at h
          · rcases List.mem_append.1 h with h | h
            · exact absurd h htrb
            · rcases List.mem_cons.1 h with h | h
              · simp at h
              · rw [hwc] at h
                exact ⟨beforeHook_mem_runLive env tc testRun h, Or.inr ⟨tr, e, rfl⟩⟩
        | shortestErr e =>
          exfalso
          have hx : executeTest env tc testRun false =
              (Event.replayAttempt :: tr, Except.error e) := by
            unfold executeTest
            rw [if_neg (by simp [hdirect]), if_pos ⟨hcaching, rfl⟩, hrc]
          rw [hx] at hmem
          rcases List.mem_cons.1 hmem with h | h
          · simp at h
          · exact htrb h

/-- C9 (amended): if the after hook throws after the primary test action
produced a verdict, the TestRun ends failed; when the primary verdict is
failed the final reason concatenates the primary reason and the hook
message ("AI: <reason>, After: <message>"), but when the primary verdict is
passed — on the live path or after a successful cached replay — the final
reason is the hook's message alone, replacing the passed reason. -/
theorem C9_after_hook_failure_composition (env : ExecEnv) (tc : TestCase)
    (testRun : TestRun) (msg : String)
    (hafter : tc.afterFn = some (Except.error msg))
    (hbefore : tc.beforeFn = none ∨ tc.beforeFn = some (Except.ok ())) :
    ((runLive env tc testRun).2 =
       Except.ok (testRun.markFailed
         (if env.ai.status = TestStatus.failed
          then "AI: " ++ env.ai.reason ++ ", After: " ++ msg else msg)
         (some env.ai.usage)) ∧
     (testRun.markFailed
         (if env.ai.status = TestStatus.failed
          then "AI: " ++ env.ai.reason ++ ", After: " ++ msg else msg)
         (some env.ai.usage)).status = TestStatus.failed) ∧
    (∀ tr r, tc.directExecution = false → env.cachingEnabled = true →
      runCachedTest env.oracle env.runs testRun = (tr, Except.ok r) →
      (executeTest env tc testRun false).2 = Except.ok (r.markFailed msg none) ∧
      (r.markFailed msg none).status = TestStatus.failed ∧
      (r.markFailed msg none).reason = some msg ∧
      r.status = TestStatus.passed ∧
      r.reason = some "All actions successfully replayed from cache") := by
  constructor
  · constructor
    · unfold runLive runLiveResult
      rcases hbefore with hb | hb <;>
        rw [hb, hafter] <;> simp [liveAfterReason]
    · rfl
  · intro tr r hdirect hcaching hrc
    obtain ⟨hstat, hreason, _⟩ :=
      runCachedTest_ok_flags env.oracle env.runs testRun tr r hrc
    have hx : executeTest env tc testRun false =
        (Event.replayAttempt :: tr ++ [Event.afterHook],
         Except.ok (r.markFailed (cachedAfterReason r msg) none)) := by
      unfold executeTest
      rw [if_neg (by simp [hdirect]), if_pos ⟨hcaching, rfl⟩, hrc, hafter]
    have hcomp : cachedAfterReason r msg = msg := by
      unfold cachedAfterReason
      rw [hstat]
      simp
    rw [hx, hcomp]
    exact ⟨rfl, rfl, rfl, hstat, hreason⟩

/-- Witness for C4 at the two concrete scenarios: with an empty repository
the replay attempt fails with the not-found cache error and the call falls
back — navigating to the initial location and re-running via the live path,
with replay attempted exactly once; with a cleanly replaying repository but
a still-pending run, `markPassedFromCache` raises an invalid-transition
engine error, which propagates with no fallback. -/
theorem C4_cache_error_fallback_witness :
    runCachedTest envNoRuns.oracle envNoRuns.runs runRunningSample =
      ([], Except.error (RunnerError.cacheErr
        { kind := CacheErrorKind.notFound,
          message := "No successful cached test run found" })) ∧
    executeTest envNoRuns tcSample runRunningSample false =
      (Event.replayAttempt :: [] ++
         Event.navigate envNoRuns.initialUrl ::
           (executeTest envNoRuns tcSample runRunningSample true).1,
       (executeTest envNoRuns tcSample runRunningSample true).2) ∧
    (executeTest envNoRuns tcSample runRunningSample false).1.count Event.replayAttempt = 1 ∧
    runCachedTest envCleanReplay.oracle envCleanReplay.runs runPendingSample =
      (cleanReplayTrace,
       Except.error (RunnerError.shortestErr
         { message := "Can only pass from running state" })) ∧
    executeTest envCleanReplay tcSample runPendingSample false =
      (Event.replayAttempt :: cleanReplayTrace,
       Except.error { message := "Can only pass from running state" }) :=
  ⟨by decide,
   ((C4_cache_error_fallback envNoRuns tcSample runRunningSample rfl rfl).1
      [] { kind := CacheErrorKind.notFound,
           message := "No successful cached test run found" } (by decide)).1,
   ((C4_cache_error_fallback envNoRuns tcSample runRunningSample rfl rfl).1
      [] { kind := CacheErrorKind.notFound,
           message := "No successful cached test run found" } (by decide)).2.2,
   by decide,
   (C4_cache_error_fallback envCleanReplay tcSample runPendingSample rfl rfl).2
      cleanReplayTrace { message := "Can only pass from running state" } (by decide)⟩

/-- Witness for C10: with the cleanly replaying repository and a running
run, the replay succeeds and no before-hook event appears in the trace of
the call. -/
theorem C10_before_hook_skipped_witness :
    runCachedTest envCleanReplay.oracle envCleanReplay.runs runRunningSample =
      (cleanReplayTrace, Except.ok runReplayedSample) ∧
    Event.beforeHook ∉ (executeTest envCleanReplay tcSample runRunningSample false).1 :=
  ⟨by decide,
   (((C10_before_hook_skipped_on_cached_path envCleanReplay tcSample runRunningSample
      rfl rfl).1) cleanReplayTrace runReplayedSample (by decide)).1⟩

/-- C9 counterexample: with the AI verdict passed (reason "AI verdict
reason") and the after hook throwing "after hook boom", the live path ends
the run failed with reason exactly "after hook boom", which does not
contain the primary verdict's reason; the claimed composition of both
reasons does not happen for a passed primary verdict. -/
theorem C9_counterexample :
    envNoRuns.ai.status = TestStatus.passed ∧
    envNoRuns.ai.reason = "AI verdict reason" ∧
    tcAfterFail.afterFn = some (Except.error "after hook boom") ∧
    (runLive envNoRuns tcAfterFail runRunningSample).2 =
      Except.ok (runRunningSample.markFailed "after hook boom" (some usageSample)) ∧
    (runRunningSample.markFailed "after hook boom" (some usageSample)).status =
      TestStatus.failed ∧
    (runRunningSample.markFailed "after hook boom" (some usageSample)).reason =
      some "after hook boom" ∧
    containsStr "after hook boom" "AI verdict reason" = false := by decide

/-- Witness for C9 (amended) at the failed-verdict scenario: the final
reason is the composition "AI: <reason>, After: <message>", containing both
the primary reason and the hook message. -/
theorem C9_after_hook_failure_composition_witness :
    (runLive envAiFailed tcAfterFail runRunningSample).2 =
      Except.ok (runRunningSample.markFailed
        ("AI: " ++ envAiFailed.ai.reason ++ ", After: " ++ "after hook boom")
        (some envAiFailed.ai.usage)) ∧
    containsStr ("AI: " ++ envAiFailed.ai.reason ++ ", After: " ++ "after hook boom")
      "AI failed reason" = true ∧
    containsStr ("AI: " ++ envAiFailed.ai.reason ++ ", After: " ++ "after hook boom")
      "after hook boom" = true := by
  refine ⟨?_, by decide, by decide⟩
  have h := (C9_after_hook_failure_composition envAiFailed tcAfterFail runRunningSample
    "after hook boom" rfl (Or.inl rfl)).1.1
  simpa [envAiFailed, aiFailedSample] using h

end Shortest
